import Mathlib

/-!
Verification of the OHS hazard-reporting app (src/OHS.py) against its
specification.  The submission pipeline is embedded shallowly:

* the filesystem is a state `FSState` holding the uploads directory flag,
  the CSV log (as parsed rows of fields, `none` when the file is absent)
  and the written image files (an association list from path to bytes,
  where a fresh write is consed in front, so that the first match is the
  current content — this models overwrite-on-open);
* `initialize_storage`, `save_image`, `save_report` and the body of the
  `if submitted:` block of `main` (lines 135-165) are translated one to
  one; filesystem faults of the image write and of `DataFrame.to_csv`
  are modelled by boolean oracles (`imgOk`, `appendOk`): the Python code
  has no other failure source on these paths;
* `datetime.strftime` fields and `os.path.splitext` are modelled after
  their CPython behaviour (`splitext` including the leading-dot rule of
  `posixpath._splitext`); `urgency.split(' ')[0]` is modelled by a
  character-level split on single spaces.
-/

/-- Decimal digits, most significant first, with enough fuel to
terminate structurally (`n` needs at most `n + 1` digits). -/
def natDigitsAux : Nat → Nat → List Char
  | 0, _ => []
  | fuel + 1, n =>
    if n < 10 then [Char.ofNat (48 + n)]
    else natDigitsAux fuel (n / 10) ++ [Char.ofNat (48 + n % 10)]

/-- Decimal digit characters of a natural number, most significant first
(the digits printed by C `%d` / glibc `%Y`). -/
def natDigits (n : Nat) : List Char := natDigitsAux (n + 1) n

/-- Zero-padded-to-width-2 decimal digits, as printed by `%02d`
(strftime `%m`, `%d`, `%H`, `%M`, `%S`). -/
def pad2 (n : Nat) : List Char :=
  if n < 10 then '0' :: natDigits n else natDigits n

/-- A wall-clock instant at second resolution, the part of
`datetime.now()` consumed by the two `strftime` calls in `main`. -/
structure Timestamp where
  year : Nat
  month : Nat
  day : Nat
  hour : Nat
  minute : Nat
  second : Nat
deriving DecidableEq

/-- The invariants `datetime` guarantees for `datetime.now()`, plus the
current-era bound `1000 ≤ year ≤ 9999` under which glibc `%Y` prints
exactly four digits. -/
def ValidTime (t : Timestamp) : Prop :=
  1000 ≤ t.year ∧ t.year ≤ 9999 ∧ 1 ≤ t.month ∧ t.month ≤ 12 ∧
  1 ≤ t.day ∧ t.day ≤ 31 ∧ t.hour ≤ 23 ∧ t.minute ≤ 59 ∧ t.second ≤ 59

instance (t : Timestamp) : Decidable (ValidTime t) := by
  unfold ValidTime; infer_instance

/-- Line 142: `timestamp.strftime("HAZ%Y%m%d-%H%M%S")`. -/
def reportId (t : Timestamp) : String :=
  String.mk (['H', 'A', 'Z'] ++ natDigits t.year ++ pad2 t.month ++ pad2 t.day
    ++ ['-'] ++ pad2 t.hour ++ pad2 t.minute ++ pad2 t.second)

/-- Line 150: `timestamp.strftime("%Y-%m-%d %H:%M:%S")`. -/
def timestampStr (t : Timestamp) : String :=
  String.mk (natDigits t.year ++ ['-'] ++ pad2 t.month ++ ['-'] ++ pad2 t.day
    ++ [' '] ++ pad2 t.hour ++ [':'] ++ pad2 t.minute ++ [':'] ++ pad2 t.second)

/-- Python `str.rfind` for a single character: index of the last
occurrence, `-1` when absent.  `i` is the index of the head of the
remaining list, `acc` the best index seen so far. -/
def rfindAux (c : Char) : List Char → Int → Int → Int
  | [], _, acc => acc
  | x :: xs, i, acc => rfindAux c xs (i + 1) (if x = c then i else acc)

def rfind (s : String) (c : Char) : Int := rfindAux c s.toList 0 (-1)

/-- The extension component of CPython `posixpath.splitext` (used at
line 67): the substring from the last dot, provided that dot lies after
the last `/` and at least one character between them is not a dot
(so dotless names and names made of leading dots get `""`). -/
def splitext_ext (p : String) : String :=
  let sepIndex := rfind p '/'
  let dotIndex := rfind p '.'
  if sepIndex < dotIndex then
    let base := (p.toList.take dotIndex.toNat).drop (sepIndex + 1).toNat
    if base.any (fun ch => ch ≠ '.') then String.mk (p.toList.drop dotIndex.toNat)
    else ""
  else ""

/-- Python `s.split(' ')`: split on every single space, keeping empty
pieces (so a leading space yields a leading empty piece). -/
def splitOnSpace : List Char → List (List Char)
  | [] => [[]]
  | c :: cs =>
    if c = ' ' then [] :: splitOnSpace cs
    else
      match splitOnSpace cs with
      | [] => [[c]]
      | r :: rs => (c :: r) :: rs

/-- Line 154: `urgency.split(' ')[0]`. -/
def pySplitFirst (s : String) : String :=
  String.mk ((splitOnSpace s.toList).headD [])

/-- Modelled from the spec: "the substring up to the first space
character" — the spec's wording for the stored urgency tag, to be
compared with `pySplitFirst`. -/
def specTagOf (s : String) : String :=
  String.mk (s.toList.takeWhile fun c => c ≠ ' ')

/-- Python `a if a else b` on an optional string (line 156):
`None` and the empty string both fall back to the default. -/
def truthyOr (o : Option String) (dflt : String) : String :=
  match o with
  | some v => if v = "" then dflt else v
  | none => dflt

/-- An uploaded photo as `save_image` consumes it: its original
filename (`uploaded_file.name`) and its raw bytes (`getbuffer()`). -/
structure Photo where
  name : String
  content : List Nat
deriving DecidableEq

/-- The form fields reaching the submission block.  `st.text_input` and
`st.text_area` yield strings (empty when unfilled); `st.selectbox`
yields one of its fixed options; `st.file_uploader` yields an optional
file. -/
structure FormInput where
  employee_id : String
  entity : String
  specific_area : String
  description : String
  urgency : String
  photo : Option Photo
deriving DecidableEq

/-- The three options of the urgency selectbox (lines 119-123). -/
def urgencyOptions : List String :=
  ["🔴 Immediate Danger - Stop Work Required",
   "🟡 Needs Attention - Potential for Harm",
   "🟢 General Improvement / Observation"]

/-- The filesystem state touched by the pipeline: whether the uploads
directory exists, the report CSV (`none` when absent, otherwise its
rows, each a list of fields), and the image files. -/
structure FSState where
  uploadsDir : Bool
  log : Option (List (List String))
  images : List (String × List Nat)
deriving DecidableEq

/-- The schema header written by `initialize_storage` (lines 34-37). -/
def headerRow : List String :=
  ["ReportID", "Timestamp", "EmployeeID", "Entity",
   "SpecificArea", "Urgency", "Description", "ImagePath"]

/-- Lines 23-38: create the uploads directory and the CSV (with the
header and no data rows) when absent; touch nothing that exists. -/
def initialize_storage (s : FSState) : FSState :=
  let s1 := if s.uploadsDir then s else { s with uploadsDir := true }
  match s1.log with
  | some _ => s1
  | none => { s1 with log := some [headerRow] }

/-- `open(path, "wb")` followed by `f.write`: the new content shadows
any previous file at `path` (first match wins on lookup). -/
def writeImageFile (files : List (String × List Nat)) (path : String)
    (content : List Nat) : List (String × List Nat) :=
  (path, content) :: files

/-- Lines 56-76, `save_image`, plus the possibility that the
open/write raises (oracle `imgOk = false`), in which case the exception
propagates out of `main` uncaught: `.error ()`.  On `None` input it
returns `None` with no filesystem interaction. -/
def save_image (uploaded : Option Photo) (report_id : String) (imgOk : Bool)
    (s : FSState) : Except Unit (Option String × FSState) :=
  match uploaded with
  | none => .ok (none, s)
  | some p =>
    let image_filename := report_id ++ splitext_ext p.name
    let image_path := "uploads/" ++ image_filename
    if imgOk then
      .ok (some image_path, { s with images := writeImageFile s.images image_path p.content })
    else .error ()

/-- Lines 40-54, `save_report`: append one row to the CSV without the
header (`mode='a', header=False`); `to_csv` with mode `a` creates the
file headerless when it is absent.  Any exception is caught and turned
into `false` with the state it left (the row not written). -/
def save_report (row : List String) (appendOk : Bool) (s : FSState) : Bool × FSState :=
  if appendOk then
    match s.log with
    | some rows => (true, { s with log := some (rows ++ [row]) })
    | none => (true, { s with log := some [row] })
  else (false, s)

/-- Lines 148-157: the `report_data` dict, in its key (= column)
order. -/
def mkRow (t : Timestamp) (inp : FormInput) (report_id : String)
    (image_path : Option String) : List String :=
  [report_id,
   timestampStr t,
   (if inp.employee_id = "" then "Anonymous" else inp.employee_id),
   inp.entity,
   inp.specific_area,
   pySplitFirst inp.urgency,
   inp.description,
   truthyOr image_path "N/A"]

/-- What the submission block surfaces to the user. -/
inductive Outcome where
  | validationError
  | imageWriteError
  | success (report_id : String)
  | saveFailed
deriving DecidableEq

/-- Lines 135-165: the `if submitted:` block of `main`.  Validation
first; on success mint the ID from the captured time, save the image,
build the row, append it. -/
def submit (t : Timestamp) (inp : FormInput) (imgOk appendOk : Bool)
    (s : FSState) : Outcome × FSState :=
  if inp.description = "" ∨ inp.specific_area = "" then
    (.validationError, s)
  else
    let report_id := reportId t
    match save_image inp.photo report_id imgOk s with
    | .error _ => (.imageWriteError, s)
    | .ok (image_path, s1) =>
      let row := mkRow t inp report_id image_path
      match save_report row appendOk s1 with
      | (true, s2) => (.success report_id, s2)
      | (false, s2) => (.saveFailed, s2)

/-- One full rerun of `main` with the form submitted:
`initialize_storage` (line 85) and then the submission block. -/
def mainRun (t : Timestamp) (inp : FormInput) (imgOk appendOk : Bool)
    (s : FSState) : Outcome × FSState :=
  submit t inp imgOk appendOk (initialize_storage s)

/-- A sequence of fault-free submissions, each a rerun of `main`. -/
def submitAll (subs : List (Timestamp × FormInput)) (s : FSState) : FSState :=
  subs.foldl (fun st x => (submit x.1 x.2 true true st).2) s

/-- The image path `save_image` resolves for a submission (`none`
when no photo is attached). -/
def imagePathOf (inp : FormInput) (report_id : String) : Option String :=
  inp.photo.map fun p => "uploads/" ++ (report_id ++ splitext_ext p.name)

/-- The most recently appended row of the log. -/
def lastRow (s : FSState) : List String :=
  ((s.log.getD []).getLast?).getD []

/-- The data rows of the log: everything after the header. -/
def records (s : FSState) : List (List String) :=
  (s.log.getD []).drop 1

/-- No record's ImagePath names a file that is not on disk. -/
def noDanglingRef (s : FSState) : Prop :=
  ∀ row ∈ records s, row.getD 7 "N/A" ≠ "N/A" →
    (s.images.lookup (row.getD 7 "N/A")).isSome

/-- States reachable by the app: first run on a fresh deployment (no
CSV, no images), then any sequence of reruns, with or without a
submission, under any fault pattern. -/
inductive Reachable : FSState → Prop
  | boot (b : Bool) : Reachable (initialize_storage ⟨b, none, []⟩)
  | rerun {s : FSState} : Reachable s → Reachable (initialize_storage s)
  | step {s : FSState} (t : Timestamp) (inp : FormInput) (imgOk appendOk : Bool) :
      Reachable s → Reachable (mainRun t inp imgOk appendOk s).2

/-- The filesystem state after a fault-free successful submission: the
image (when a photo is attached) written at its resolved path, then the
row appended to the log. -/
def afterSubmit (t : Timestamp) (inp : FormInput) (s : FSState) : FSState :=
  let rid := reportId t
  let s1 := match inp.photo with
    | some p =>
      { s with images :=
          writeImageFile s.images ("uploads/" ++ (rid ++ splitext_ext p.name)) p.content }
    | none => s
  { s1 with log := some (s1.log.getD [] ++ [mkRow t inp rid (imagePathOf inp rid)]) }

/-- The anchored regex `HAZ\d8-\d6` transcribed character by
character: literally `HAZ`, eight digits, a hyphen, six digits. -/
def hazShape : List Char → Bool
  | 'H' :: 'A' :: 'Z' :: d1 :: d2 :: d3 :: d4 :: d5 :: d6 :: d7 :: d8
      :: '-' :: e1 :: e2 :: e3 :: e4 :: e5 :: e6 :: [] =>
    [d1, d2, d3, d4, d5, d6, d7, d8, e1, e2, e3, e4, e5, e6].all Char.isDigit
  | _ => false

/-- `HAZ` + 8 digits + `-` + 6 digits. -/
def matchesHazPattern (s : String) : Bool := hazShape s.toList

/-! ### Concrete fixtures used by witnesses and counterexamples -/

/-- A sample creation instant: 2026-01-02 03:04:05. -/
def sampleTime : Timestamp := ⟨2026, 1, 2, 3, 4, 5⟩

/-- A freshly initialized store: uploads directory present, log holding
only the header. -/
def fsInit : FSState := ⟨true, some [headerRow], []⟩

/-- The scenario of spec section 8: Line 3 Wrapper, loose guard rail,
urgency "Needs Attention", no photo. -/
def inpNoPhoto : FormInput :=
  ⟨"E123", "Flour Mill", "Line 3 Wrapper", "Loose guard rail",
   "🟡 Needs Attention - Potential for Harm", none⟩

/-- Same report with a `.png` photo attached. -/
def inpPng : FormInput := { inpNoPhoto with photo := some ⟨"cat.png", [7, 8]⟩ }

/-- Same report with a `.jpg` photo attached. -/
def inpJpg : FormInput := { inpNoPhoto with photo := some ⟨"cat.jpg", [9]⟩ }

/-- Same report with a different `.png` photo attached. -/
def inpPng2 : FormInput := { inpNoPhoto with photo := some ⟨"dog.png", [2]⟩ }

/-- Same report with a whitespace-only specific area. -/
def inpWs : FormInput := { inpNoPhoto with specific_area := " " }

/-- Same report with an empty description. -/
def inpMissing : FormInput := { inpNoPhoto with description := "" }

/-! ### Lemmas about the formatted digit strings -/

lemma charOfNat_isDigit (m : Nat) (h : m < 10) : (Char.ofNat (48 + m)).isDigit = true := by
  interval_cases m <;> decide

lemma natDigitsAux_irrel (f1 : Nat) : ∀ f2 n, n < f1 → n < f2 →
    natDigitsAux f1 n = natDigitsAux f2 n := by
  induction f1 with
  | zero => intro f2 n h1 _; omega
  | succ f ih =>
    intro f2 n h1 h2
    cases f2 with
    | zero => omega
    | succ g =>
      simp only [natDigitsAux]
      by_cases h : n < 10
      · rw [if_pos h, if_pos h]
      · rw [if_neg h, if_neg h, ih g (n / 10) (by omega) (by omega)]

lemma natDigitsAux_succ_eq (fuel n : Nat) (h : n < fuel + 1) :
    natDigitsAux (fuel + 1) n = if n < 10 then [Char.ofNat (48 + n)]
      else natDigits (n / 10) ++ [Char.ofNat (48 + n % 10)] := by
  simp only [natDigitsAux]
  by_cases h10 : n < 10
  · rw [if_pos h10, if_pos h10]
  · rw [if_neg h10, if_neg h10]
    unfold natDigits
    rw [natDigitsAux_irrel fuel (n / 10 + 1) (n / 10) (by omega) (by omega)]

lemma natDigits_eq (n : Nat) :
    natDigits n = if n < 10 then [Char.ofNat (48 + n)]
      else natDigits (n / 10) ++ [Char.ofNat (48 + n % 10)] :=
  natDigitsAux_succ_eq n n (by omega)

lemma natDigits_all_digit (n : Nat) : (natDigits n).all Char.isDigit = true := by
  induction n using Nat.strong_induction_on with
  | _ n ih =>
    rw [natDigits_eq]
    by_cases h : n < 10
    · rw [if_pos h]; simp [charOfNat_isDigit n h]
    · rw [if_neg h]
      simp [List.all_append, ih (n / 10) (by omega),
        charOfNat_isDigit (n % 10) (by omega)]

lemma natDigits_length_one (n : Nat) (h : n < 10) : (natDigits n).length = 1 := by
  rw [natDigits_eq, if_pos h]; rfl

lemma natDigits_length_two (n : Nat) (h1 : 10 ≤ n) (h2 : n ≤ 99) :
    (natDigits n).length = 2 := by
  rw [natDigits_eq, if_neg (by omega)]
  simp [natDigits_length_one (n / 10) (by omega)]

lemma natDigits_length_three (n : Nat) (h1 : 100 ≤ n) (h2 : n ≤ 999) :
    (natDigits n).length = 3 := by
  rw [natDigits_eq, if_neg (by omega)]
  simp [natDigits_length_two (n / 10) (by omega) (by omega)]

lemma natDigits_length_four (n : Nat) (h1 : 1000 ≤ n) (h2 : n ≤ 9999) :
    (natDigits n).length = 4 := by
  rw [natDigits_eq, if_neg (by omega)]
  simp [natDigits_length_three (n / 10) (by omega) (by omega)]

lemma pad2_length (n : Nat) (h : n ≤ 99) : (pad2 n).length = 2 := by
  unfold pad2
  by_cases h10 : n < 10
  · rw [if_pos h10]; simp [natDigits_length_one n h10]
  · rw [if_neg h10]; exact natDigits_length_two n (by omega) h

lemma pad2_all_digit (n : Nat) : (pad2 n).all Char.isDigit = true := by
  unfold pad2
  by_cases h10 : n < 10
  · rw [if_pos h10]
    simp [List.all_cons, natDigits_all_digit n]
  · rw [if_neg h10]; exact natDigits_all_digit n

lemma list_eq_of_length_two {α : Type} (l : List α) (h : l.length = 2) :
    ∃ a b, l = [a, b] := by
  cases l with
  | nil => simp at h
  | cons a l1 =>
    cases l1 with
    | nil => simp at h
    | cons b l2 =>
      cases l2 with
      | nil => exact ⟨a, b, rfl⟩
      | cons c l3 => simp at h

lemma list_eq_of_length_four {α : Type} (l : List α) (h : l.length = 4) :
    ∃ a b c d, l = [a, b, c, d] := by
  cases l with
  | nil => simp at h
  | cons a l1 =>
    have h1 : l1.length = 3 := by simpa using h
    cases l1 with
    | nil => simp at h1
    | cons b l2 =>
      have h2 : l2.length = 2 := by simpa using h1
      obtain ⟨c, d, rfl⟩ := list_eq_of_length_two l2 h2
      exact ⟨a, b, c, d, rfl⟩

lemma pad2_digits (n : Nat) (a b : Char) (h : pad2 n = [a, b]) :
    a.isDigit = true ∧ b.isDigit = true := by
  have hall := pad2_all_digit n
  rw [h] at hall
  simpa using hall

lemma natDigits_digits4 (n : Nat) (a b c d : Char) (h : natDigits n = [a, b, c, d]) :
    a.isDigit = true ∧ b.isDigit = true ∧ c.isDigit = true ∧ d.isDigit = true := by
  have hall := natDigits_all_digit n
  rw [h] at hall
  simpa using hall

lemma hazShape_arm (u1 u2 u3 u4 v1 v2 w1 w2 x1 x2 z1 z2 q1 q2 : Char) :
    hazShape ('H' :: 'A' :: 'Z' :: u1 :: u2 :: u3 :: u4 :: v1 :: v2 :: w1 :: w2
        :: '-' :: x1 :: x2 :: z1 :: z2 :: q1 :: q2 :: []) =
      [u1, u2, u3, u4, v1, v2, w1, w2, x1, x2, z1, z2, q1, q2].all Char.isDigit := rfl

lemma reportId_matches_haz (t : Timestamp) (h : ValidTime t) :
    matchesHazPattern (reportId t) = true := by
  obtain ⟨hy1, hy2, hm1, hm2, hd1, hd2, hh, hmi, hs⟩ := h
  obtain ⟨y1, y2, y3, y4, hy⟩ :=
    list_eq_of_length_four _ (natDigits_length_four t.year hy1 hy2)
  obtain ⟨a1, a2, ha⟩ := list_eq_of_length_two _ (pad2_length t.month (by omega))
  obtain ⟨b1, b2, hb⟩ := list_eq_of_length_two _ (pad2_length t.day (by omega))
  obtain ⟨c1, c2, hc⟩ := list_eq_of_length_two _ (pad2_length t.hour (by omega))
  obtain ⟨d1, d2, hd⟩ := list_eq_of_length_two _ (pad2_length t.minute (by omega))
  obtain ⟨e1, e2, he⟩ := list_eq_of_length_two _ (pad2_length t.second (by omega))
  obtain ⟨gy1, gy2, gy3, gy4⟩ := natDigits_digits4 t.year y1 y2 y3 y4 hy
  obtain ⟨ga1, ga2⟩ := pad2_digits t.month a1 a2 ha
  obtain ⟨gb1, gb2⟩ := pad2_digits t.day b1 b2 hb
  obtain ⟨gc1, gc2⟩ := pad2_digits t.hour c1 c2 hc
  obtain ⟨gd1, gd2⟩ := pad2_digits t.minute d1 d2 hd
  obtain ⟨ge1, ge2⟩ := pad2_digits t.second e1 e2 he
  show hazShape (['H', 'A', 'Z'] ++ natDigits t.year ++ pad2 t.month ++ pad2 t.day
    ++ ['-'] ++ pad2 t.hour ++ pad2 t.minute ++ pad2 t.second) = true
  rw [hy, ha, hb, hc, hd, he]
  simp only [List.cons_append, List.nil_append]
  rw [hazShape_arm]
  simp [gy1, gy2, gy3, gy4, ga1, ga2, gb1, gb2, gc1, gc2, gd1, gd2, ge1, ge2]

/-! ### Lemmas about the submission pipeline -/

lemma submit_success (t : Timestamp) (inp : FormInput) (s : FSState)
    (hd : inp.description ≠ "") (ha : inp.specific_area ≠ "") :
    submit t inp true true s = (.success (reportId t), afterSubmit t inp s) := by
  have hv : ¬(inp.description = "" ∨ inp.specific_area = "") := not_or.mpr ⟨hd, ha⟩
  cases hph : inp.photo with
  | none =>
    cases hlog : s.log with
    | none =>
      simp [submit, save_image, save_report, afterSubmit, imagePathOf, hv, hph, hlog]
    | some rows =>
      simp [submit, save_image, save_report, afterSubmit, imagePathOf, hv, hph, hlog]
  | some p =>
    cases hlog : s.log with
    | none =>
      simp [submit, save_image, save_report, afterSubmit, imagePathOf, writeImageFile,
        hv, hph, hlog]
    | some rows =>
      simp [submit, save_image, save_report, afterSubmit, imagePathOf, writeImageFile,
        hv, hph, hlog]

lemma submit_invalid (t : Timestamp) (inp : FormInput) (io ao : Bool) (s : FSState)
    (hv : inp.description = "" ∨ inp.specific_area = "") :
    submit t inp io ao s = (.validationError, s) := by
  simp [submit, hv]

lemma submit_fst_ne_validation (t : Timestamp) (inp : FormInput) (io ao : Bool)
    (s : FSState) (hv : ¬(inp.description = "" ∨ inp.specific_area = "")) :
    (submit t inp io ao s).1 ≠ Outcome.validationError := by
  unfold submit
  rw [if_neg hv]
  cases hph : inp.photo with
  | none =>
    cases ao <;> cases hlog : s.log <;> simp [save_image, save_report, hlog]
  | some p =>
    cases io with
    | false => simp [save_image]
    | true => cases ao <;> cases hlog : s.log <;> simp [save_image, save_report, hlog]

lemma submit_imgFail (t : Timestamp) (inp : FormInput) (p : Photo) (ao : Bool)
    (s : FSState) (hph : inp.photo = some p)
    (hv : ¬(inp.description = "" ∨ inp.specific_area = "")) :
    submit t inp false ao s = (.imageWriteError, s) := by
  unfold submit
  rw [if_neg hv]
  simp [save_image, hph]

lemma afterSubmit_log (t : Timestamp) (inp : FormInput) (s : FSState) :
    (afterSubmit t inp s).log
      = some (s.log.getD [] ++ [mkRow t inp (reportId t) (imagePathOf inp (reportId t))]) := by
  unfold afterSubmit
  cases inp.photo <;> simp

lemma afterSubmit_images_none (t : Timestamp) (inp : FormInput) (s : FSState)
    (hph : inp.photo = none) : (afterSubmit t inp s).images = s.images := by
  unfold afterSubmit
  rw [hph]

lemma afterSubmit_images_some (t : Timestamp) (inp : FormInput) (s : FSState) (p : Photo)
    (hph : inp.photo = some p) :
    (afterSubmit t inp s).images
      = ("uploads/" ++ (reportId t ++ splitext_ext p.name), p.content) :: s.images := by
  unfold afterSubmit
  rw [hph]
  rfl

lemma uploads_ne_empty (x : String) : ("uploads/" ++ x) ≠ "" := by
  intro h
  have h2 : "uploads/".data ++ x.data = ([] : List Char) := by
    have := congrArg String.data h
    rwa [String.data_append] at this
  exact absurd (List.append_eq_nil.mp h2).1 (by decide)

lemma mkRow_getD7 (t : Timestamp) (inp : FormInput) (rid : String) (ip : Option String) :
    (mkRow t inp rid ip).getD 7 "" = truthyOr ip "N/A" := rfl

lemma mkRow_getD5 (t : Timestamp) (inp : FormInput) (rid : String) (ip : Option String) :
    (mkRow t inp rid ip).getD 5 "" = pySplitFirst inp.urgency := rfl

lemma lastRow_afterSubmit (t : Timestamp) (inp : FormInput) (s : FSState) :
    lastRow (afterSubmit t inp s) = mkRow t inp (reportId t) (imagePathOf inp (reportId t)) := by
  unfold lastRow
  rw [afterSubmit_log]
  simp

lemma lookup_isSome_cons (k p : String) (v : List Nat) (l : List (String × List Nat))
    (h : (l.lookup p).isSome = true) : (((k, v) :: l).lookup p).isSome = true := by
  simp only [List.lookup]
  cases hpk : p == k
  · simpa using h
  · simp

lemma mem_drop_one_append {α : Type} (r x : α) (rows : List α)
    (h : r ∈ (rows ++ [x]).drop 1) : r ∈ rows.drop 1 ∨ r = x := by
  cases rows with
  | nil => simp at h
  | cons a l =>
    simp only [List.cons_append, List.drop_one, List.tail_cons] at h ⊢
    rcases List.mem_append.mp h with h1 | h1
    · exact Or.inl h1
    · simp at h1
      exact Or.inr h1

lemma submitAll_log (subs : List (Timestamp × FormInput)) :
    ∀ (s : FSState) (rows0 : List (List String)), s.log = some rows0 →
    (∀ x ∈ subs, x.2.description ≠ "" ∧ x.2.specific_area ≠ "") →
    (submitAll subs s).log = some (rows0 ++
      subs.map fun x => mkRow x.1 x.2 (reportId x.1) (imagePathOf x.2 (reportId x.1))) := by
  induction subs with
  | nil =>
    intro s rows0 hlog _
    simpa [submitAll] using hlog
  | cons x xs ih =>
    intro s rows0 hlog hval
    have hx := hval x (List.mem_cons_self x xs)
    have hstep : submitAll (x :: xs) s = submitAll xs (afterSubmit x.1 x.2 s) := by
      simp [submitAll, submit_success x.1 x.2 s hx.1 hx.2]
    rw [hstep, ih (afterSubmit x.1 x.2 s)
      (rows0 ++ [mkRow x.1 x.2 (reportId x.1) (imagePathOf x.2 (reportId x.1))])
      (by simp [afterSubmit_log, hlog])
      (fun y hy => hval y (List.mem_cons_of_mem x hy))]
    simp

/-! ### Lemmas for the no-dangling-image-reference invariant -/

lemma init_log_of_some (s : FSState) (rows : List (List String)) (h : s.log = some rows) :
    (initialize_storage s).log = some rows := by
  unfold initialize_storage
  cases hdir : s.uploadsDir <;> simp [h]

lemma init_log_of_none (s : FSState) (h : s.log = none) :
    (initialize_storage s).log = some [headerRow] := by
  unfold initialize_storage
  cases hdir : s.uploadsDir <;> simp [h]

lemma init_images (s : FSState) : (initialize_storage s).images = s.images := by
  unfold initialize_storage
  cases hdir : s.uploadsDir <;> cases hlog : s.log <;> simp [hlog]

lemma initialize_preserves (s : FSState) (h : noDanglingRef s) :
    noDanglingRef (initialize_storage s) := by
  intro row hr hne
  rw [init_images]
  cases hlog : s.log with
  | none =>
    rw [records, init_log_of_none s hlog] at hr
    simp at hr
  | some rows =>
    apply h row _ hne
    rw [records, init_log_of_some s rows hlog] at hr
    rw [records, hlog]
    exact hr

lemma noDangling_single (s : FSState) (row : List String) :
    noDanglingRef { s with log := some [row] } := by
  intro r hr _
  rw [records] at hr
  simp at hr

lemma noDangling_append_row (s : FSState) (row : List String) (rows : List (List String))
    (hlog : s.log = some rows) (h : noDanglingRef s)
    (hrow : row.getD 7 "N/A" ≠ "N/A" →
      (s.images.lookup (row.getD 7 "N/A")).isSome = true) :
    noDanglingRef { s with log := some (rows ++ [row]) } := by
  intro r hr hne
  rw [records] at hr
  simp only [Option.getD_some] at hr
  rcases mem_drop_one_append r row rows hr with h1 | h1
  · exact h r (by rw [records, hlog]; exact h1) hne
  · subst h1
    exact hrow hne

lemma noDangling_extend_images (s : FSState) (k : String) (v : List Nat)
    (h : noDanglingRef s) : noDanglingRef { s with images := (k, v) :: s.images } := by
  intro r hr hne
  exact lookup_isSome_cons k _ v s.images (h r hr hne)

lemma submit_preserves (t : Timestamp) (inp : FormInput) (io ao : Bool) (s : FSState)
    (h : noDanglingRef s) : noDanglingRef (submit t inp io ao s).2 := by
  by_cases hv : inp.description = "" ∨ inp.specific_area = ""
  · rw [submit_invalid t inp io ao s hv]
    exact h
  · cases hph : inp.photo with
    | none =>
      cases ao with
      | false =>
        have he : submit t inp io false s = (.saveFailed, s) := by
          unfold submit
          rw [if_neg hv]
          simp [save_image, save_report, hph]
        rw [he]
        exact h
      | true =>
        cases hlog : s.log with
        | none =>
          have he : (submit t inp io true s).2
              = { s with log := some [mkRow t inp (reportId t) none] } := by
            unfold submit
            rw [if_neg hv]
            simp [save_image, save_report, hph, hlog]
          rw [he]
          exact noDangling_single s _
        | some rows =>
          have he : (submit t inp io true s).2
              = { s with log := some (rows ++ [mkRow t inp (reportId t) none]) } := by
            unfold submit
            rw [if_neg hv]
            simp [save_image, save_report, hph, hlog]
          rw [he]
          refine noDangling_append_row s _ rows hlog h ?_
          intro hne
          exact absurd rfl hne
    | some p =>
      cases io with
      | false =>
        rw [submit_imgFail t inp p ao s hph hv]
        exact h
      | true =>
        have h1 : noDanglingRef { s with images :=
            ("uploads/" ++ (reportId t ++ splitext_ext p.name), p.content) :: s.images } :=
          noDangling_extend_images s _ _ h
        cases ao with
        | false =>
          have he : (submit t inp true false s).2 = { s with images :=
              ("uploads/" ++ (reportId t ++ splitext_ext p.name), p.content) :: s.images } := by
            unfold submit
            rw [if_neg hv]
            simp [save_image, save_report, writeImageFile, hph]
          rw [he]
          exact h1
        | true =>
          cases hlog : s.log with
          | none =>
            have he : (submit t inp true true s).2
                = { s with
                    log := some [mkRow t inp (reportId t)
                      (some ("uploads/" ++ (reportId t ++ splitext_ext p.name)))],
                    images :=
                      ("uploads/" ++ (reportId t ++ splitext_ext p.name), p.content)
                        :: s.images } := by
              unfold submit
              rw [if_neg hv]
              simp [save_image, save_report, writeImageFile, hph, hlog]
            rw [he]
            exact noDangling_single { s with images :=
              ("uploads/" ++ (reportId t ++ splitext_ext p.name), p.content) :: s.images } _
          | some rows =>
            have he : (submit t inp true true s).2
                = { s with
                    log := some (rows ++ [mkRow t inp (reportId t)
                      (some ("uploads/" ++ (reportId t ++ splitext_ext p.name)))]),
                    images :=
                      ("uploads/" ++ (reportId t ++ splitext_ext p.name), p.content)
                        :: s.images } := by
              unfold submit
              rw [if_neg hv]
              simp [save_image, save_report, writeImageFile, hph, hlog]
            rw [he]
            refine noDangling_append_row { s with images :=
                ("uploads/" ++ (reportId t ++ splitext_ext p.name), p.content) :: s.images }
              _ rows hlog h1 ?_
            intro _
            have hcol : (mkRow t inp (reportId t)
                (some ("uploads/" ++ (reportId t ++ splitext_ext p.name)))).getD 7 "N/A"
                = "uploads/" ++ (reportId t ++ splitext_ext p.name) := by
              show truthyOr (some ("uploads/" ++ (reportId t ++ splitext_ext p.name))) "N/A"
                = "uploads/" ++ (reportId t ++ splitext_ext p.name)
              simp [truthyOr, uploads_ne_empty]
            rw [hcol]
            simp [List.lookup]

lemma reachable_noDangling (s : FSState) (h : Reachable s) : noDanglingRef s := by
  induction h with
  | boot b =>
    apply initialize_preserves
    intro r hr _
    rw [records] at hr
    simp at hr
  | rerun _ ih => exact initialize_preserves _ ih
  | step t inp imgOk appendOk _ ih =>
    exact submit_preserves t inp imgOk appendOk _ (initialize_preserves _ ih)

/-! ### Lemmas about split and splitext -/

lemma splitOnSpace_ne_nil (cs : List Char) : splitOnSpace cs ≠ [] := by
  cases cs with
  | nil => simp [splitOnSpace]
  | cons c cs =>
    unfold splitOnSpace
    by_cases h : c = ' '
    · rw [if_pos h]; simp
    · rw [if_neg h]
      cases hsp : splitOnSpace cs <;> simp

lemma splitOnSpace_headD (cs : List Char) :
    (splitOnSpace cs).headD [] = cs.takeWhile (fun c => c ≠ ' ') := by
  induction cs with
  | nil => rfl
  | cons c cs ih =>
    unfold splitOnSpace
    by_cases h : c = ' '
    · rw [if_pos h]
      simp [List.takeWhile_cons, h]
    · rw [if_neg h]
      cases hsp : splitOnSpace cs with
      | nil => exact absurd hsp (splitOnSpace_ne_nil cs)
      | cons r rs =>
        rw [hsp] at ih
        simp only [List.headD_cons] at ih
        show c :: r = List.takeWhile (fun c => c ≠ ' ') (c :: cs)
        rw [ih]
        simp [List.takeWhile_cons, h]

lemma pySplitFirst_eq_specTag (s : String) : pySplitFirst s = specTagOf s := by
  unfold pySplitFirst specTagOf
  rw [splitOnSpace_headD]

lemma rfindAux_of_not_mem (c : Char) (l : List Char) :
    ∀ (i acc : Int), c ∉ l → rfindAux c l i acc = acc := by
  induction l with
  | nil => intro i acc _; rfl
  | cons x xs ih =>
    intro i acc h
    unfold rfindAux
    rw [if_neg (by intro hx; exact h (by rw [hx]; exact List.mem_cons_self c xs))]
    exact ih (i + 1) acc (fun hm => h (List.mem_cons_of_mem x hm))

lemma rfindAux_ge (c : Char) (l : List Char) :
    ∀ (i acc : Int), -1 ≤ acc → 0 ≤ i → -1 ≤ rfindAux c l i acc := by
  induction l with
  | nil => intro i acc h _; exact h
  | cons x xs ih =>
    intro i acc h hi
    unfold rfindAux
    by_cases hx : x = c
    · rw [if_pos hx]
      exact ih (i + 1) i (by omega) (by omega)
    · rw [if_neg hx]
      exact ih (i + 1) acc h (by omega)

lemma splitext_ext_no_dot (p : String) (h : '.' ∉ p.toList) : splitext_ext p = "" := by
  unfold splitext_ext
  have hdot : rfind p '.' = -1 := rfindAux_of_not_mem '.' p.toList 0 (-1) h
  have hsep : -1 ≤ rfind p '/' := rfindAux_ge '/' p.toList 0 (-1) (by omega) (by omega)
  rw [hdot, if_neg (by omega)]

example : reportId ⟨2026, 1, 2, 3, 45, 6⟩ = "HAZ20260102-034506" := by decide
example : matchesHazPattern "HAZ20260102-034506" = true := by decide
example : splitext_ext "photo.jpg" = ".jpg" := by decide
example : splitext_ext "photo" = "" := by decide
example : splitext_ext ".bashrc" = "" := by decide
example : splitext_ext "a.b.c" = ".c" := by decide
example : pySplitFirst "🟡 Needs Attention - Potential for Harm" = "🟡" := by decide

/-! ### Claims -/

/-- C1 (counterexample): the claim demands rejection exactly when
specific_area or description is empty after trimming; the code tests
Python truthiness without trimming, so a whitespace-only specific_area
(here a single space, which trims to empty) passes validation and the
submission succeeds. -/
theorem C1_counterexample :
    ((inpWs.specific_area.toList.all fun c => c = ' ') = true ∧ inpWs.specific_area ≠ "")
    ∧ (submit sampleTime inpWs true true fsInit).1 = Outcome.success "HAZ20260102-030405" := by
  decide

/-- C1 (amended): the submission block returns a validation error and
leaves the filesystem untouched iff description or specific_area is the
empty string; emptiness is tested without trimming, so whitespace-only
fields are accepted. -/
theorem C1_validation_iff (t : Timestamp) (inp : FormInput) (io ao : Bool) (s : FSState) :
    submit t inp io ao s = (Outcome.validationError, s)
      ↔ (inp.description = "" ∨ inp.specific_area = "") := by
  constructor
  · intro h
    by_contra hv
    exact submit_fst_ne_validation t inp io ao s hv (by rw [h])
  · exact submit_invalid t inp io ao s

/-- C2: from any state whose log holds rows0, submitting N valid reports
(fault-free) leaves the log equal to rows0 followed by exactly the N new
rows, each row being the submitted values in the fixed column order
(ReportID, Timestamp, EmployeeID, Entity, SpecificArea, Urgency,
Description, ImagePath — the columns of mkRow); prior rows and header
are untouched and the row count grows by exactly N. -/
theorem C2_round_trip (subs : List (Timestamp × FormInput)) (s : FSState)
    (rows0 : List (List String)) (hlog : s.log = some rows0)
    (hval : ∀ x ∈ subs, x.2.description ≠ "" ∧ x.2.specific_area ≠ "") :
    (submitAll subs s).log = some (rows0 ++
        subs.map fun x => mkRow x.1 x.2 (reportId x.1) (imagePathOf x.2 (reportId x.1)))
    ∧ ((submitAll subs s).log.getD []).length = rows0.length + subs.length := by
  have h := submitAll_log subs s rows0 hlog hval
  refine ⟨h, ?_⟩
  rw [h]
  simp

/-- C2 witness: one valid submission on a fresh header-only log. -/
theorem C2_witness :
    (submitAll [(sampleTime, inpNoPhoto)] fsInit).log = some ([headerRow] ++
        [(sampleTime, inpNoPhoto)].map fun x =>
          mkRow x.1 x.2 (reportId x.1) (imagePathOf x.2 (reportId x.1)))
    ∧ ((submitAll [(sampleTime, inpNoPhoto)] fsInit).log.getD []).length
        = [headerRow].length + [(sampleTime, inpNoPhoto)].length :=
  C2_round_trip [(sampleTime, inpNoPhoto)] fsInit [headerRow] rfl (by decide)

/-- C3: when specific_area or description is empty the submission block
returns a validation error and the state is returned unchanged — no
report ID minted into the log, no image written, no row appended. -/
theorem C3_invalid_no_side_effects (t : Timestamp) (inp : FormInput) (io ao : Bool)
    (s : FSState) (h : inp.description = "" ∨ inp.specific_area = "") :
    submit t inp io ao s = (Outcome.validationError, s) :=
  submit_invalid t inp io ao s h

/-- C3 witness: an empty description is rejected with the state intact. -/
theorem C3_witness :
    submit sampleTime inpMissing true true fsInit = (Outcome.validationError, fsInit) :=
  C3_invalid_no_side_effects sampleTime inpMissing true true fsInit (Or.inl rfl)

/-- C4: on a fault-free successful submission, if a photo is attached
then the file uploads/reportId+ext holds the photo's bytes and the
appended row's ImagePath column equals exactly that path; with no photo
the column is the literal "N/A" and the image store is untouched. -/
theorem C4_image_persistence (t : Timestamp) (inp : FormInput) (s : FSState)
    (hd : inp.description ≠ "") (ha : inp.specific_area ≠ "") :
    (∀ p, inp.photo = some p →
      ((submit t inp true true s).2.images.lookup
          ("uploads/" ++ (reportId t ++ splitext_ext p.name)) = some p.content
        ∧ (lastRow (submit t inp true true s).2).getD 7 ""
            = "uploads/" ++ (reportId t ++ splitext_ext p.name)))
    ∧ (inp.photo = none →
        ((lastRow (submit t inp true true s).2).getD 7 "" = "N/A"
          ∧ (submit t inp true true s).2.images = s.images)) := by
  have hs : (submit t inp true true s).2 = afterSubmit t inp s := by
    rw [submit_success t inp s hd ha]
  rw [hs]
  constructor
  · intro p hph
    refine ⟨?_, ?_⟩
    · rw [afterSubmit_images_some t inp s p hph]
      simp [List.lookup]
    · rw [lastRow_afterSubmit, mkRow_getD7]
      simp [imagePathOf, hph, truthyOr, uploads_ne_empty]
  · intro hph
    refine ⟨?_, ?_⟩
    · rw [lastRow_afterSubmit, mkRow_getD7]
      simp [imagePathOf, hph, truthyOr]
    · exact afterSubmit_images_none t inp s hph

/-- C4 witness: a `.png` photo lands at uploads/HAZ20260102-030405.png
and the appended row's ImagePath names it. -/
theorem C4_witness :
    (submit sampleTime inpPng true true fsInit).2.images.lookup
        ("uploads/" ++ (reportId sampleTime ++ splitext_ext "cat.png")) = some [7, 8]
    ∧ (lastRow (submit sampleTime inpPng true true fsInit).2).getD 7 ""
        = "uploads/" ++ (reportId sampleTime ++ splitext_ext "cat.png") :=
  (C4_image_persistence sampleTime inpPng fsInit (by decide) (by decide)).1
    ⟨"cat.png", [7, 8]⟩ rfl

/-- C5: a valid input (both critical fields non-empty) submitted under a
real clock value succeeds and the minted report id matches
HAZ + 8 digits + hyphen + 6 digits. -/
theorem C5_valid_gives_pattern (t : Timestamp) (inp : FormInput) (s : FSState)
    (hvt : ValidTime t) (hd : inp.description ≠ "") (ha : inp.specific_area ≠ "") :
    (submit t inp true true s).1 = Outcome.success (reportId t)
    ∧ matchesHazPattern (reportId t) = true := by
  refine ⟨?_, reportId_matches_haz t hvt⟩
  rw [submit_success t inp s hd ha]

/-- C5 witness: the sample instant mints HAZ20260102-030405. -/
theorem C5_witness :
    (submit sampleTime inpNoPhoto true true fsInit).1 = Outcome.success (reportId sampleTime)
    ∧ matchesHazPattern (reportId sampleTime) = true :=
  C5_valid_gives_pattern sampleTime inpNoPhoto fsInit (by decide) (by decide) (by decide)

/-- C6: in every reachable state no log record's ImagePath names an
image that is not on disk (the image write precedes the append), and
when the image write raises, the submission aborts with the state —
log included — unchanged. -/
theorem C6_no_dangling_reference (s : FSState) (hs : Reachable s) :
    noDanglingRef s
    ∧ (∀ (t : Timestamp) (inp : FormInput) (p : Photo) (ao : Bool) (s0 : FSState),
        inp.photo = some p → ¬(inp.description = "" ∨ inp.specific_area = "") →
        submit t inp false ao s0 = (Outcome.imageWriteError, s0)) := by
  refine ⟨reachable_noDangling s hs, ?_⟩
  intro t inp p ao s0 hph hv
  exact submit_imgFail t inp p ao s0 hph hv

/-- C6 witness: the invariant at the boot state, and an aborted
submission with a failing image write leaving the state unchanged. -/
theorem C6_witness :
    noDanglingRef (initialize_storage ⟨false, none, []⟩)
    ∧ submit sampleTime inpPng false true fsInit = (Outcome.imageWriteError, fsInit) :=
  ⟨(C6_no_dangling_reference _ (Reachable.boot false)).1,
   (C6_no_dangling_reference _ (Reachable.boot false)).2 sampleTime inpPng
     ⟨"cat.png", [7, 8]⟩ true fsInit rfl (by decide)⟩

/-- C7: initialization is idempotent on every starting state, and an
existing log (header and prior rows) is left exactly as it was — no
duplicate header, no truncation, no overwrite. -/
theorem C7_initialize_idempotent (s : FSState) (rows : List (List String)) :
    initialize_storage (initialize_storage s) = initialize_storage s
    ∧ (s.log = some rows → (initialize_storage s).log = some rows) := by
  constructor
  · unfold initialize_storage
    cases hdir : s.uploadsDir <;> cases hlog : s.log <;> simp [hlog, hdir]
  · exact init_log_of_some s rows

/-- C7 witness: a state with a header and one prior row. -/
theorem C7_witness :
    initialize_storage (initialize_storage ⟨false, some [headerRow, ["r"]], []⟩)
        = initialize_storage ⟨false, some [headerRow, ["r"]], []⟩
    ∧ (initialize_storage ⟨false, some [headerRow, ["r"]], []⟩).log
        = some [headerRow, ["r"]] :=
  ⟨(C7_initialize_idempotent ⟨false, some [headerRow, ["r"]], []⟩ [headerRow, ["r"]]).1,
   (C7_initialize_idempotent ⟨false, some [headerRow, ["r"]], []⟩ [headerRow, ["r"]]).2 rfl⟩

/-- C8 (counterexample): two same-second submissions whose photos carry
different extensions — `.png` then `.jpg`: the report ids are equal as
claimed, but the second image is written to a different path and the
first file survives unchanged, refuting "written to the same on-disk
path as the first's". -/
theorem C8_counterexample :
    imagePathOf inpPng (reportId sampleTime) = some "uploads/HAZ20260102-030405.png"
    ∧ imagePathOf inpJpg (reportId sampleTime) = some "uploads/HAZ20260102-030405.jpg"
    ∧ imagePathOf inpJpg (reportId sampleTime) ≠ imagePathOf inpPng (reportId sampleTime)
    ∧ (submit sampleTime inpJpg true true
        (submit sampleTime inpPng true true fsInit).2).2.images.lookup
        "uploads/HAZ20260102-030405.png" = some [7, 8] := by
  decide

/-- C8 (amended): the id is a pure function of the second-resolution
clock and is never checked against existing state, so two same-second
assemblies mint the same id whatever the prior filesystem state; and
when the two photos' filenames carry the same extension, the second
image is written over the first at the same path (its bytes replace the
first's at that path). -/
theorem C8_same_second_same_ext (t : Timestamp) (inp1 inp2 : FormInput) (p1 p2 : Photo)
    (s1 s2 : FSState) (_h1 : inp1.photo = some p1) (h2 : inp2.photo = some p2)
    (hd1 : inp1.description ≠ "") (ha1 : inp1.specific_area ≠ "")
    (hd2 : inp2.description ≠ "") (ha2 : inp2.specific_area ≠ "")
    (hext : splitext_ext p1.name = splitext_ext p2.name) :
    (submit t inp1 true true s1).1 = Outcome.success (reportId t)
    ∧ (submit t inp2 true true s2).1 = Outcome.success (reportId t)
    ∧ (submit t inp2 true true (submit t inp1 true true s1).2).2.images.lookup
        ("uploads/" ++ (reportId t ++ splitext_ext p1.name)) = some p2.content := by
  have e1 : (submit t inp1 true true s1).2 = afterSubmit t inp1 s1 := by
    rw [submit_success t inp1 s1 hd1 ha1]
  have e2 : (submit t inp2 true true (afterSubmit t inp1 s1)).2
      = afterSubmit t inp2 (afterSubmit t inp1 s1) := by
    rw [submit_success t inp2 (afterSubmit t inp1 s1) hd2 ha2]
  refine ⟨?_, ?_, ?_⟩
  · rw [submit_success t inp1 s1 hd1 ha1]
  · rw [submit_success t inp2 s2 hd2 ha2]
  · rw [e1, e2, afterSubmit_images_some t inp2 (afterSubmit t inp1 s1) p2 h2, hext]
    simp [List.lookup]

/-- C8 witness: two same-second `.png` submissions; the shared path ends
holding the second photo's bytes. -/
theorem C8_witness :
    (submit sampleTime inpPng true true fsInit).1 = Outcome.success (reportId sampleTime)
    ∧ (submit sampleTime inpPng2 true true fsInit).1 = Outcome.success (reportId sampleTime)
    ∧ (submit sampleTime inpPng2 true true
        (submit sampleTime inpPng true true fsInit).2).2.images.lookup
        ("uploads/" ++ (reportId sampleTime ++ splitext_ext "cat.png")) = some [2] :=
  C8_same_second_same_ext sampleTime inpPng inpPng2 ⟨"cat.png", [7, 8]⟩ ⟨"dog.png", [2]⟩
    fsInit fsInit rfl rfl (by decide) (by decide) (by decide) (by decide) (by decide)

/-- C9: the stored Urgency column of a successful submission is exactly
the leading tag of the selected urgency option — the substring up to the
first space, all descriptive text discarded — and the option labelled
"Needs Attention" is stored as its symbol. -/
theorem C9_urgency_code (t : Timestamp) (inp : FormInput) (s : FSState)
    (_hu : inp.urgency ∈ urgencyOptions)
    (hd : inp.description ≠ "") (ha : inp.specific_area ≠ "") :
    (lastRow (submit t inp true true s).2).getD 5 "" = specTagOf inp.urgency
    ∧ (inp.urgency = "🟡 Needs Attention - Potential for Harm" →
        (lastRow (submit t inp true true s).2).getD 5 "" = "🟡") := by
  have hs : (submit t inp true true s).2 = afterSubmit t inp s := by
    rw [submit_success t inp s hd ha]
  rw [hs, lastRow_afterSubmit, mkRow_getD5]
  refine ⟨pySplitFirst_eq_specTag _, ?_⟩
  intro h
  rw [h]
  decide

/-- C9 witness: the section-8 scenario stores the Attention symbol. -/
theorem C9_witness :
    (lastRow (submit sampleTime inpNoPhoto true true fsInit).2).getD 5 ""
        = specTagOf "🟡 Needs Attention - Potential for Harm"
    ∧ (lastRow (submit sampleTime inpNoPhoto true true fsInit).2).getD 5 "" = "🟡" :=
  ⟨(C9_urgency_code sampleTime inpNoPhoto fsInit (by decide) (by decide) (by decide)).1,
   (C9_urgency_code sampleTime inpNoPhoto fsInit (by decide) (by decide) (by decide)).2 rfl⟩

/-- C10: a dotless original filename yields the empty extension and the
image is saved under the bare report id; with the filesystem write
succeeding, save_image returns ok on every filename shape. -/
theorem C10_dotless_extension (p : Photo) (rid : String) (s : FSState)
    (h : '.' ∉ p.name.toList) :
    splitext_ext p.name = ""
    ∧ save_image (some p) rid true s
        = Except.ok (some ("uploads/" ++ rid),
            { s with images := ("uploads/" ++ rid, p.content) :: s.images })
    ∧ (∀ q : Photo, ∃ out, save_image (some q) rid true s = Except.ok out) := by
  have hext := splitext_ext_no_dot p.name h
  refine ⟨hext, ?_, ?_⟩
  · simp only [save_image]
    rw [hext]
    simp [writeImageFile, String.append_empty]
  · intro q
    exact ⟨_, rfl⟩

/-- C10 witness: the filename "photo" is saved at uploads/ + bare id. -/
theorem C10_witness :
    splitext_ext "photo" = ""
    ∧ save_image (some ⟨"photo", [3]⟩) "HAZ20260102-030405" true fsInit
        = Except.ok (some ("uploads/" ++ "HAZ20260102-030405"),
            { fsInit with images :=
                ("uploads/" ++ "HAZ20260102-030405", [3]) :: fsInit.images }) :=
  ⟨(C10_dotless_extension ⟨"photo", [3]⟩ "HAZ20260102-030405" fsInit (by decide)).1,
   (C10_dotless_extension ⟨"photo", [3]⟩ "HAZ20260102-030405" fsInit (by decide)).2.1⟩
